import Mathlib

/-!
Verification of the SampleFlow `CovarianceMatrix` consumer
(`src/include/sampleflow/consumers/covariance_matrix.h`).

The C++ class is a streaming covariance accumulator: a state holding
`current_mean` (a vector), `current_covariance_matrix` (a matrix) and
`n_samples` (a counter), mutated by `consume` and observed by `get`.

Shallow embedding choices:
* scalars are modelled by `ℚ` (the source is templated over the sample's
  scalar type; the claims are about the exact recursion, not floating point);
* a sample / the mean is a `List ℚ`, a matrix is a `List (List ℚ)` (row
  major); accesses use `List.getD` with default `0`, which coincides with
  the C++ indexed access whenever the index is in range — all theorems that
  depend on entries carry in-range dimension hypotheses, since out-of-range
  indexed access in the C++ source is undefined behavior, not a value;
* the mutation of a `consume` or `get` call is modelled by returning the
  post-state explicitly (`get` returns a value/post-state pair, mirroring a
  `const` member function that returns a copy of the matrix).
-/

namespace SampleFlow

/-- The auxiliary-data argument of `consume`. The type itself is declared in
`sampleflow/types.h`, which is not among the given sources; modelled from the
spec as opaque key/value metadata, adequate because the source's `consume`
never reads its `aux_data` parameter (the parameter name is even commented
out in the definition). -/
def AuxiliaryData : Type := List (String × String)

/-- Entry `i` of a vector, i.e. the C++ `v[i]`; `0` when out of range (the
C++ access would be undefined behavior there, so theorems about entries keep
indices in range). -/
def vecEntry (v : List ℚ) (i : ℕ) : ℚ := v.getD i 0

/-- Entry `(i, j)` of a row-major matrix, i.e. the C++ `m(i,j)`; `0` when out
of range. -/
def matEntry (m : List (List ℚ)) (i j : ℕ) : ℚ := (m.getD i []).getD j 0

/-- The state of a `SampleFlow::Consumers::CovarianceMatrix<InputType>`
object: the three member variables (the mutex only serializes calls and has
no value content). -/
structure CovarianceMatrix where
  current_mean : List ℚ
  current_covariance_matrix : List (List ℚ)
  n_samples : ℕ
deriving DecidableEq, Repr

/-- The constructor `CovarianceMatrix()`: `n_samples(0)`, with the mean and
the matrix default-constructed (empty vector, 0×0 matrix). -/
def CovarianceMatrix.init : CovarianceMatrix :=
  { current_mean := []
    current_covariance_matrix := []
    n_samples := 0 }

/-- `CovarianceMatrix::consume(sample, aux_data)`.

First branch (`n_samples == 0`): set `n_samples = 1`, resize the matrix to
`sample.size() × sample.size()` (boost::ublas resize with `preserve = true`
value-initializes the new entries, so the result is the zero matrix, as the
source's own comment states), move the sample into `current_mean`.

Else branch: `++n_samples` (call it `k`), `delta = sample - current_mean`
componentwise, then for all `i, j < sample.size()`
`current_covariance_matrix(i,j) += delta[i]*delta[j]/n_samples`; then
`update = sample - current_mean` (the mean is still the pre-update one),
`update /= n_samples`, `current_mean += update`. The in-place entry updates
are modelled by rebuilding the matrix over `i, j < sample.size()`, which
agrees with the source whenever the sample has the established dimension
(otherwise the source's accesses are undefined behavior). `aux_data` is
ignored, exactly as in the source. -/
def consume (st : CovarianceMatrix) (sample : List ℚ) (aux_data : AuxiliaryData) :
    CovarianceMatrix :=
  if st.n_samples = 0 then
    { n_samples := 1
      current_covariance_matrix :=
        List.replicate sample.length (List.replicate sample.length (0 : ℚ))
      current_mean := sample }
  else
    let k : ℕ := st.n_samples + 1
    let delta : List ℚ := List.zipWith (fun a b => a - b) sample st.current_mean
    let cov : List (List ℚ) :=
      (List.range sample.length).map (fun i =>
        (List.range sample.length).map (fun j =>
          matEntry st.current_covariance_matrix i j +
            vecEntry delta i * vecEntry delta j / (k : ℚ)))
    let update : List ℚ :=
      (List.zipWith (fun a b => a - b) sample st.current_mean).map (fun a => a / (k : ℚ))
    { n_samples := k
      current_covariance_matrix := cov
      current_mean := List.zipWith (fun a b => a + b) st.current_mean update }

/-- `CovarianceMatrix::get()`: returns (a copy of) `current_covariance_matrix`.
The second component is the post-state of the call, made explicit so that the
read-only nature of `get` is a provable statement. -/
def get (st : CovarianceMatrix) : List (List ℚ) × CovarianceMatrix :=
  (st.current_covariance_matrix, st)

/-- Consuming a list of samples in order into a fresh accumulator (each call
with empty auxiliary data, which `consume` ignores anyway). -/
def consumeAll (samples : List (List ℚ)) : CovarianceMatrix :=
  samples.foldl (fun st s => consume st s []) CovarianceMatrix.init

/-- Symmetry of a (row-major) matrix, stated on the total entry accessor. -/
def symmMat (m : List (List ℚ)) : Prop :=
  ∀ i j, matEntry m i j = matEntry m j i

/-- The multiset of divisor values of the scalar divisions performed by one
`consume` call, read off the source: the first-sample branch divides nowhere;
the else branch divides once per covariance entry `(i, j)` with
`i, j < sample.size()` (`delta[i]*delta[j]/n_samples`) and once per component
of `update` (`update /= n_samples`), always by the already-incremented
counter `n_samples = ` old count `+ 1`. -/
def consumeDivisors (st : CovarianceMatrix) (sample : List ℚ) : List ℕ :=
  if st.n_samples = 0 then []
  else
    List.replicate (sample.length * sample.length + sample.length) (st.n_samples + 1)

/-! Helper lemmas about list/matrix indexing, shared by the claim theorems. -/

theorem getD_map_range {α : Type} (f : ℕ → α) (n i : ℕ) (d : α) :
    ((List.range n).map f).getD i d = if i < n then f i else d := by
  rcases lt_or_ge i n with h | h
  · rw [List.getD_eq_getElem?_getD, List.getElem?_map, List.getElem?_range h]
    simp [h]
  · rw [List.getD_eq_getElem?_getD, List.getElem?_eq_none
      (by simpa [List.length_map, List.length_range] using h)]
    simp [Nat.not_lt_of_ge h]

theorem getD_replicate {α : Type} (n i : ℕ) (a d : α) :
    (List.replicate n a).getD i d = if i < n then a else d := by
  rw [List.getD_eq_getElem?_getD, List.getElem?_replicate]
  by_cases h : i < n <;> simp [h]

theorem matEntry_mkMatrix (f : ℕ → ℕ → ℚ) (n i j : ℕ) :
    matEntry ((List.range n).map (fun a => (List.range n).map (fun b => f a b))) i j =
      if i < n ∧ j < n then f i j else 0 := by
  unfold matEntry
  rw [getD_map_range]
  by_cases hi : i < n
  · rw [if_pos hi, getD_map_range]
    by_cases hj : j < n
    · simp [hi, hj]
    · simp [hi, hj]
  · simp [hi, List.getD_nil]

theorem matEntry_replicate_zero (n i j : ℕ) :
    matEntry (List.replicate n (List.replicate n (0 : ℚ))) i j = 0 := by
  unfold matEntry
  rw [getD_replicate]
  by_cases hi : i < n
  · rw [if_pos hi, getD_replicate]
    by_cases hj : j < n <;> simp [hj]
  · rw [if_neg hi, List.getD_nil]

theorem getD_zipWith (f : ℚ → ℚ → ℚ) :
    ∀ (a b : List ℚ) (i : ℕ), i < a.length → i < b.length →
      (List.zipWith f a b).getD i 0 = f (a.getD i 0) (b.getD i 0) := by
  intro a
  induction a with
  | nil => intro b i h _; exact absurd h (by simp)
  | cons x xs ih =>
    intro b i h1 h2
    cases b with
    | nil => exact absurd h2 (by simp)
    | cons y ys =>
      cases i with
      | zero => simp
      | succ n => simpa using ih ys n (by simpa using h1) (by simpa using h2)

theorem getD_map_div (k : ℚ) :
    ∀ (a : List ℚ) (i : ℕ), i < a.length →
      (a.map (fun x => x / k)).getD i 0 = a.getD i 0 / k := by
  intro a
  induction a with
  | nil => intro i h; exact absurd h (by simp)
  | cons x xs ih =>
    intro i h
    cases i with
    | zero => simp
    | succ n => simpa using ih n (by simpa using h)

/-! The shape of the else branch of `consume` (the non-first-sample update),
split into its three components. -/

theorem consume_nonfirst_n_samples (st : CovarianceMatrix) (sample : List ℚ)
    (aux : AuxiliaryData) (h0 : ¬ st.n_samples = 0) :
    (consume st sample aux).n_samples = st.n_samples + 1 := by
  simp [consume, h0]

theorem consume_nonfirst_cov (st : CovarianceMatrix) (sample : List ℚ)
    (aux : AuxiliaryData) (h0 : ¬ st.n_samples = 0) :
    (consume st sample aux).current_covariance_matrix =
      (List.range sample.length).map (fun i =>
        (List.range sample.length).map (fun j =>
          matEntry st.current_covariance_matrix i j +
            vecEntry (List.zipWith (fun a b => a - b) sample st.current_mean) i *
              vecEntry (List.zipWith (fun a b => a - b) sample st.current_mean) j /
                ((st.n_samples + 1 : ℕ) : ℚ))) := by
  simp only [consume, if_neg h0]

theorem consume_nonfirst_mean (st : CovarianceMatrix) (sample : List ℚ)
    (aux : AuxiliaryData) (h0 : ¬ st.n_samples = 0) :
    (consume st sample aux).current_mean =
      List.zipWith (fun a b => a + b) st.current_mean
        ((List.zipWith (fun a b => a - b) sample st.current_mean).map
          (fun a => a / ((st.n_samples + 1 : ℕ) : ℚ))) := by
  simp only [consume, if_neg h0]

theorem symmMat_preserved_by_consume (st : CovarianceMatrix) (s : List ℚ)
    (aux : AuxiliaryData) (h : symmMat st.current_covariance_matrix) :
    symmMat (consume st s aux).current_covariance_matrix := by
  by_cases h0 : st.n_samples = 0
  · intro i j
    have hcov : (consume st s aux).current_covariance_matrix =
        List.replicate s.length (List.replicate s.length (0 : ℚ)) := by
      simp only [consume, if_pos h0]
    rw [hcov, matEntry_replicate_zero, matEntry_replicate_zero]
  · intro i j
    rw [consume_nonfirst_cov st s aux h0, matEntry_mkMatrix, matEntry_mkMatrix]
    by_cases hij : i < s.length ∧ j < s.length
    · rw [if_pos hij, if_pos ⟨hij.2, hij.1⟩, h i j]
      ring
    · rw [if_neg hij, if_neg (fun hji => hij ⟨hji.2, hji.1⟩)]

theorem symmMat_preserved_by_foldl_consume (l : List (List ℚ)) :
    ∀ st : CovarianceMatrix, symmMat st.current_covariance_matrix →
      symmMat ((l.foldl (fun st s => consume st s []) st).current_covariance_matrix) := by
  induction l with
  | nil => intro st h; simpa using h
  | cons s rest ih =>
    intro st h
    simpa [List.foldl_cons] using ih _ (symmMat_preserved_by_consume st s [] h)

/-! The claim theorems. -/

/-- C1: for every accumulator state with `count ≥ 1` and every sample of the
established dimension `n` (the length of the stored mean), `consume`
produces exactly the post-state of the spec's recursion with `k = count + 1`:
every covariance entry `(i, j)` with `i, j < n` grows by
`delta[i] * delta[j] / k` where `delta = sample - mean` uses the pre-update
mean; the mean grows by `delta / k` using that same pre-update mean; and the
count becomes `k`. -/
theorem consume_step_matches_spec_recursion (st : CovarianceMatrix) (sample : List ℚ)
    (aux : AuxiliaryData) (hc : 1 ≤ st.n_samples)
    (hm : st.current_mean.length = sample.length) :
    (consume st sample aux).n_samples = st.n_samples + 1 ∧
    (∀ i j, i < sample.length → j < sample.length →
      matEntry (consume st sample aux).current_covariance_matrix i j =
        matEntry st.current_covariance_matrix i j +
          (vecEntry sample i - vecEntry st.current_mean i) *
            (vecEntry sample j - vecEntry st.current_mean j) /
              ((st.n_samples + 1 : ℕ) : ℚ)) ∧
    (∀ i, i < sample.length →
      vecEntry (consume st sample aux).current_mean i =
        vecEntry st.current_mean i +
          (vecEntry sample i - vecEntry st.current_mean i) /
            ((st.n_samples + 1 : ℕ) : ℚ)) := by
  have h0 : ¬ st.n_samples = 0 := by omega
  have hdelta : ∀ t, t < sample.length →
      (List.zipWith (fun a b => a - b) sample st.current_mean).getD t 0 =
        sample.getD t 0 - st.current_mean.getD t 0 := by
    intro t ht
    exact getD_zipWith _ sample st.current_mean t ht (by omega)
  refine ⟨consume_nonfirst_n_samples st sample aux h0, ?_, ?_⟩
  · intro i j hi hj
    rw [consume_nonfirst_cov st sample aux h0, matEntry_mkMatrix, if_pos ⟨hi, hj⟩]
    simp only [vecEntry]
    rw [hdelta i hi, hdelta j hj]
  · intro i hi
    rw [consume_nonfirst_mean st sample aux h0]
    simp only [vecEntry]
    rw [getD_zipWith _ st.current_mean _ i (by omega)
      (by rw [List.length_map, List.length_zipWith]; omega)]
    rw [getD_map_div _ _ i (by rw [List.length_zipWith]; omega)]
    rw [hdelta i hi]

/-- Witness for C1: the state after consuming `1.0` (count 1, mean `[1]`,
covariance `[[0]]`) consuming `3.0`. -/
theorem consume_step_matches_spec_recursion_witness :
    1 ≤ (CovarianceMatrix.mk [1] [[0]] 1).n_samples ∧
    (CovarianceMatrix.mk [1] [[0]] 1).current_mean.length = [(3 : ℚ)].length ∧
    ((consume (CovarianceMatrix.mk [1] [[0]] 1) [(3 : ℚ)] []).n_samples =
        (CovarianceMatrix.mk [1] [[0]] 1).n_samples + 1 ∧
      (∀ i j, i < [(3 : ℚ)].length → j < [(3 : ℚ)].length →
        matEntry (consume (CovarianceMatrix.mk [1] [[0]] 1)
            [(3 : ℚ)] []).current_covariance_matrix i j =
          matEntry (CovarianceMatrix.mk [1] [[0]] 1).current_covariance_matrix i j +
            (vecEntry [(3 : ℚ)] i -
                vecEntry (CovarianceMatrix.mk [1] [[0]] 1).current_mean i) *
              (vecEntry [(3 : ℚ)] j -
                vecEntry (CovarianceMatrix.mk [1] [[0]] 1).current_mean j) /
                (((CovarianceMatrix.mk [1] [[0]] 1).n_samples + 1 : ℕ) : ℚ)) ∧
      (∀ i, i < [(3 : ℚ)].length →
        vecEntry (consume (CovarianceMatrix.mk [1] [[0]] 1)
            [(3 : ℚ)] []).current_mean i =
          vecEntry (CovarianceMatrix.mk [1] [[0]] 1).current_mean i +
            (vecEntry [(3 : ℚ)] i -
                vecEntry (CovarianceMatrix.mk [1] [[0]] 1).current_mean i) /
              (((CovarianceMatrix.mk [1] [[0]] 1).n_samples + 1 : ℕ) : ℚ))) :=
  ⟨by decide, by decide,
    consume_step_matches_spec_recursion (CovarianceMatrix.mk [1] [[0]] 1) [(3 : ℚ)] []
      (by decide) (by decide)⟩

/-- C2 (supporting evidence for the code bug): in the source, a `consume`
call whose sample length differs from the established dimension takes the
else branch and executes `++n_samples` before any indexed access, so the
state is already mutated at the point where the source then performs
out-of-range accesses (`delta -= current_mean` and
`current_covariance_matrix(i,j)` for indices beyond the stored dimension —
undefined behavior in C++, with no dimension check and no catchable failure
anywhere in the function). Concretely: after establishing dimension 2 with
the sample `[1, 2]`, consuming the 3-dimensional sample `[1, 2, 3]` leaves
the counter incremented to 2 rather than the prior state intact. -/
theorem mismatched_consume_mutates_count :
    (consume CovarianceMatrix.init [(1 : ℚ), 2] []).n_samples = 1 ∧
    (consume (consume CovarianceMatrix.init [(1 : ℚ), 2] []) [(1 : ℚ), 2, 3] []).n_samples
      = 2 := by
  constructor <;> rfl

/-- C3: consuming exactly one sample of dimension `n` into a freshly
constructed accumulator sets the count to 1, sets the mean to that sample,
and makes `get` return the `n × n` zero matrix (every entry zero). -/
theorem first_sample_initializes (sample : List ℚ) (aux : AuxiliaryData) :
    (consume CovarianceMatrix.init sample aux).n_samples = 1 ∧
    (consume CovarianceMatrix.init sample aux).current_mean = sample ∧
    (get (consume CovarianceMatrix.init sample aux)).1 =
      List.replicate sample.length (List.replicate sample.length (0 : ℚ)) ∧
    (∀ i j, matEntry (get (consume CovarianceMatrix.init sample aux)).1 i j = 0) := by
  refine ⟨rfl, rfl, rfl, ?_⟩
  intro i j
  have hcov : (get (consume CovarianceMatrix.init sample aux)).1 =
      List.replicate sample.length (List.replicate sample.length (0 : ℚ)) := rfl
  rw [hcov, matEntry_replicate_zero]

/-- C4: the worked recursion of the spec: consuming the one-dimensional
samples `1, 3, 5` in order yields `get() = [[0]]` after the first sample,
`[[2]]` after the second, `[[5]]` after all three, with internal mean `[3]`. -/
theorem worked_recursion_one_three_five :
    (get (consumeAll [[1]])).1 = [[(0 : ℚ)]] ∧
    (get (consumeAll [[1], [3]])).1 = [[(2 : ℚ)]] ∧
    (get (consumeAll [[1], [3], [5]])).1 = [[(5 : ℚ)]] ∧
    (consumeAll [[1], [3], [5]]).current_mean = [(3 : ℚ)] := by
  refine ⟨by decide, ?_, ?_, ?_⟩ <;>
    norm_num [consumeAll, consume, CovarianceMatrix.init, get, matEntry, vecEntry,
      List.range_succ]

/-- C5: on a freshly constructed accumulator (no `consume` ever called),
`get` succeeds and returns the empty 0 × 0 matrix, never a non-empty matrix
of undefined content. -/
theorem get_on_fresh_accumulator_is_empty :
    (get CovarianceMatrix.init).1 = ([] : List (List ℚ)) ∧
    (get CovarianceMatrix.init).1.length = 0 :=
  ⟨rfl, rfl⟩

/-- C6: `get` never modifies the accumulator state (its post-state equals
its pre-state, in the Empty state and every Accumulating state alike), the
value it returns is exactly the stored covariance matrix, a `consume` after
`get` behaves exactly as if `get` had never been called, and a further `get`
after a `consume` also leaves the state unchanged. The returned matrix is a
value (the C++ method returns by value, i.e. a copy), so a snapshot already
returned is never altered by later `consume` calls. -/
theorem get_is_pure_snapshot (st : CovarianceMatrix) (sample : List ℚ)
    (aux : AuxiliaryData) :
    (get st).2 = st ∧
    (get st).1 = st.current_covariance_matrix ∧
    consume (get st).2 sample aux = consume st sample aux ∧
    (get (consume st sample aux)).2 = consume st sample aux :=
  ⟨rfl, rfl, rfl, rfl⟩

/-- C7: every state reachable by consuming a nonempty sequence of
same-dimension samples (interleaved `get` calls do not change the state, by
`get_is_pure_snapshot`) has a symmetric covariance matrix. -/
theorem reachable_covariance_symmetric (s0 : List ℚ) (rest : List (List ℚ))
    (hdim : ∀ s ∈ rest, s.length = s0.length) :
    symmMat ((consumeAll (s0 :: rest)).current_covariance_matrix) := by
  have hinit : symmMat (CovarianceMatrix.init).current_covariance_matrix := by
    intro i j
    simp [matEntry, CovarianceMatrix.init, List.getD_nil]
  have h1 := symmMat_preserved_by_consume CovarianceMatrix.init s0 [] hinit
  simpa [consumeAll, List.foldl_cons] using symmMat_preserved_by_foldl_consume rest _ h1

/-- Witness for C7: three two-dimensional samples. -/
theorem reachable_covariance_symmetric_witness :
    (∀ s ∈ [[(4 : ℚ), 7], [(5 : ℚ), 6]], s.length = [(1 : ℚ), 2].length) ∧
    symmMat ((consumeAll ([(1 : ℚ), 2] :: [[(4 : ℚ), 7], [(5 : ℚ), 6]])).current_covariance_matrix) :=
  ⟨by decide,
    reachable_covariance_symmetric [(1 : ℚ), 2] [[(4 : ℚ), 7], [(5 : ℚ), 6]] (by decide)⟩

/-- C8 counterexample: the claim names the triple `1, 3, 5` as a multiset
whose forward and reverse consumption orders give different covariances, but
they give the same `get()` result `[[5]]` (the recursion only ever uses
differences from the running mean, and `5, 3, 1` is the image of `1, 3, 5`
under the reflection `x ↦ 6 - x`, which negates every delta and so leaves
every product of two deltas unchanged). -/
theorem reverse_of_one_three_five_gives_equal_covariance :
    (get (consumeAll [[1], [3], [5]])).1 = (get (consumeAll [[5], [3], [1]])).1 := by
  norm_num [consumeAll, consume, CovarianceMatrix.init, get, matEntry, vecEntry,
    List.range_succ]

/-- C8 (amended): the update is order-sensitive: there is a multiset of
same-dimension samples — the one-dimensional triple `1, 2, 5` — such that
consuming it in one order and in the reverse order yields different final
covariance matrices from `get` (`[[55/12]]` versus `[[79/12]]`). -/
theorem order_sensitivity_one_two_five :
    (get (consumeAll [[1], [2], [5]])).1 ≠ (get (consumeAll [[5], [2], [1]])).1 := by
  norm_num [consumeAll, consume, CovarianceMatrix.init, get, matEntry, vecEntry,
    List.range_succ]

/-- C9: the auxiliary-data argument of `consume` has no effect: for every
state, every sample and every two auxiliary-data values, the two calls
produce identical post-states and identical subsequent `get` results (the
source never reads its `aux_data` parameter). -/
theorem aux_data_has_no_effect (st : CovarianceMatrix) (sample : List ℚ)
    (aux1 aux2 : AuxiliaryData) :
    consume st sample aux1 = consume st sample aux2 ∧
    (get (consume st sample aux1)).1 = (get (consume st sample aux2)).1 :=
  ⟨rfl, rfl⟩

/-- C10: no scalar division of `consume` divides by zero: the first-sample
branch performs no division at all, and every division of the else branch
divides by the already-incremented counter, which is at least 2 there
(`consumeDivisors` lists the divisor of every scalar division one `consume`
call performs, read off the source code). -/
theorem consume_divisors_at_least_two (st : CovarianceMatrix) (sample : List ℚ) (d : ℕ) :
    (st.n_samples = 0 → consumeDivisors st sample = []) ∧
    (d ∈ consumeDivisors st sample → 2 ≤ d) := by
  constructor
  · intro h
    simp [consumeDivisors, h]
  · intro hd
    by_cases h0 : st.n_samples = 0
    · simp [consumeDivisors, h0] at hd
    · simp only [consumeDivisors, if_neg h0, List.mem_replicate] at hd
      omega

/-- Witness for C10: a fresh accumulator divides nowhere; the second
`consume` call ever (count 1, one-dimensional) divides only by 2. -/
theorem consume_divisors_at_least_two_witness :
    consumeDivisors CovarianceMatrix.init [(1 : ℚ)] = [] ∧ 2 ≤ 2 :=
  ⟨(consume_divisors_at_least_two CovarianceMatrix.init [(1 : ℚ)] 2).1 rfl,
    (consume_divisors_at_least_two (CovarianceMatrix.mk [3] [[0]] 1) [(5 : ℚ)] 2).2
      (by decide)⟩

end SampleFlow
